import Mathlib

/-!
Verification development for the cocos3d particle emitter
(`src/cocos3d/C3DParticleEmitter.h`).

The repository ships only the class interface: the bodies of `update`,
`emit`, `generateScalar`, `generateVectorInRect` and
`generateVectorInEllipsoid` are declared but not present under `src/`.
Those operations are therefore modelled from the specification text and
marked `Modelled from the spec:` in their doc comments.  The inline
setters and getters of the header (`setRotationSpeedMin`,
`setRotationSpeedMax`, `setOrbitPosition`, `setOrbitVelocity`,
`setOrbitAcceleration` and their getters) are embedded directly from the
source.  Machine floats and `long` millisecond counters are embedded as
rationals; randomness is made explicit by passing the random draws as
arguments.
-/

namespace Cocos3d

/-- Embedding of `C3DVector3`: a 3-component vector with rational
components standing for the floats of the source. -/
structure C3DVector3 where
  x : ℚ
  y : ℚ
  z : ℚ
deriving DecidableEq, Repr

/-- Componentwise vector addition. -/
def vadd (a b : C3DVector3) : C3DVector3 :=
  ⟨a.x + b.x, a.y + b.y, a.z + b.z⟩

/-- Scalar multiplication of a vector. -/
def vsmul (c : ℚ) (a : C3DVector3) : C3DVector3 :=
  ⟨c * a.x, c * a.y, c * a.z⟩

/-- Squared Euclidean norm of a vector. -/
def normSq (a : C3DVector3) : ℚ :=
  a.x ^ 2 + a.y ^ 2 + a.z ^ 2

/-- Embedding of `C3DMatrix` restricted to its rotation block: a 3x3
matrix with rational entries. -/
structure C3DMatrix where
  m11 : ℚ
  m12 : ℚ
  m13 : ℚ
  m21 : ℚ
  m22 : ℚ
  m23 : ℚ
  m31 : ℚ
  m32 : ℚ
  m33 : ℚ
deriving DecidableEq, Repr

/-- Application of a matrix to a vector (the `transformVector` operation
used when an orbit flag pre-rotates a sampled vector). -/
def C3DMatrix.transformVector (m : C3DMatrix) (v : C3DVector3) : C3DVector3 :=
  ⟨m.m11 * v.x + m.m12 * v.y + m.m13 * v.z,
   m.m21 * v.x + m.m22 * v.y + m.m23 * v.z,
   m.m31 * v.x + m.m32 * v.y + m.m33 * v.z⟩

/-- Modelled from the spec: `generateScalar(min, max)` (declared at
`C3DParticleEmitter.h:385`, body absent from `src/`) returns `min` when
`min == max` and otherwise a uniform value of `[min, max]`, here written
`min + rnd * (max - min)` with the random draw `rnd` of `[0, 1]` passed
explicitly. -/
def generateScalar (mn mx rnd : ℚ) : ℚ :=
  if mn = mx then mn else mn + rnd * (mx - mn)

/-- Modelled from the spec: `generateVectorInRect(base, variance, dst)`
(declared at `C3DParticleEmitter.h:391`, body absent from `src/`) sets
each axis `i` to `base[i] + variance[i] * u[i]` with `u[i]` uniform of
`[-1, 1]`, drawn independently per axis and passed explicitly. -/
def generateVectorInRect (base variance u : C3DVector3) : C3DVector3 :=
  ⟨base.x + variance.x * u.x,
   base.y + variance.y * u.y,
   base.z + variance.z * u.z⟩

/-- Modelled from the spec: `generateVectorInEllipsoid(center, scale, dst)`
(declared at `C3DParticleEmitter.h:396`, body absent from `src/`) samples
a uniform direction `dir` on the unit sphere and a radius
`r = cubeRoot(uniform(0,1))`, then scales the unit-sphere point
componentwise by `scale` and offsets by `center`; the direction and the
radius are passed explicitly. -/
def generateVectorInEllipsoid (center scale dir : C3DVector3) (r : ℚ) : C3DVector3 :=
  ⟨center.x + r * scale.x * dir.x,
   center.y + r * scale.y * dir.y,
   center.z + r * scale.z * dir.z⟩

/-- Squared magnitude of the offset of `v` from `center` divided
componentwise by `scale` (the normalized offset of the ellipsoid
containment property). -/
def normalizedOffsetNormSq (center scale v : C3DVector3) : ℚ :=
  ((v.x - center.x) / scale.x) ^ 2 +
  ((v.y - center.y) / scale.y) ^ 2 +
  ((v.z - center.z) / scale.z) ^ 2

/-- Embedding of a live particle of the pool: position, velocity,
acceleration, size, remaining life, total life, spin angle and spin
speed, all per instance. -/
structure Particle where
  position : C3DVector3
  velocity : C3DVector3
  acceleration : C3DVector3
  size : ℚ
  life : ℚ
  totalLife : ℚ
  angle : ℚ
  spinSpeed : ℚ
deriving DecidableEq, Repr

/-- Modelled from the spec: the aging of one live particle by `dt`
milliseconds inside `update` (declared at `C3DParticleEmitter.h:368`,
body absent from `src/`): position advances by `velocity * dt`,
remaining life decreases by `dt`, the spin angle advances by
`spinSpeed * dt`. -/
def stepParticle (dt : ℚ) (p : Particle) : Particle :=
  { p with
    position := vadd p.position (vsmul dt p.velocity)
    life := p.life - dt
    angle := p.angle + p.spinSpeed * dt }

/-- Whether a particle survives an aging step: only particles with
remaining life strictly above zero stay live. -/
def alive (p : Particle) : Bool :=
  decide (0 < p.life)

/-- Modelled from the spec: in-place compaction of the live set during
aging.  `done` is the already processed prefix of the pool and `todo`
the unprocessed suffix; a dead particle is overwritten by the last
unprocessed slot (swap-with-last) which is then reprocessed at the same
index, so no other particle is skipped or processed twice. -/
def ageSwap (dt : ℚ) (done todo : List Particle) : List Particle :=
  match todo with
  | [] => done
  | p :: rest =>
    let q := stepParticle dt p
    if alive q then
      ageSwap dt (done ++ [q]) rest
    else if hr : rest = [] then
      done
    else
      have _hlen : 1 ≤ rest.length := List.length_pos.mpr hr
      ageSwap dt done (rest.getLast hr :: rest.dropLast)
termination_by todo.length
decreasing_by
  all_goals simp [List.length_dropLast]
  omega

/-- The order-insensitive specification of one aging pass: step every
live particle once, then drop those whose remaining life reached zero
or below. -/
def ageSpec (dt : ℚ) (ps : List Particle) : List Particle :=
  (ps.map (stepParticle dt)).filter alive

/-- Modelled from the spec: one tick of the emission scheduler inside
`update` (declared at `C3DParticleEmitter.h:368`, body absent from
`src/`): accumulate `timeRunning += dt`, spawn
`floor(timeRunning / timePerEmission)` particles, subtract
`spawnCount * timePerEmission` so the fractional remainder persists.
Returns the spawn count and the new accumulator. -/
def scheduleStep (T r dt : ℚ) : ℤ × ℚ :=
  let t := r + dt
  let n := ⌊t / T⌋
  (n, t - n * T)

/-- Folding the scheduler over a sequence of elapsed-time deltas,
returning the total number of particles scheduled and the final
accumulator value. -/
def runSchedule (T : ℚ) : List ℚ → ℚ → ℤ × ℚ
  | [], r => (0, r)
  | dt :: rest, r =>
    let s := scheduleStep T r dt
    let m := runSchedule T rest s.2
    (s.1 + m.1, m.2)

/-- Modelled from the spec: `setEmissionRate` (declared at
`C3DParticleEmitter.h:58`, body absent from `src/`) maintains
`_timePerEmission = 1000 / emissionRate` milliseconds per particle for
a non-zero rate; a rate of zero disables continuous emission. -/
def timePerEmission (rate : ℕ) : ℚ :=
  if rate = 0 then 0 else 1000 / (rate : ℚ)

/-- Modelled from the spec: the rate-aware scheduler tick.  With
emission rate zero it produces zero spawns regardless of elapsed time
and holds the accumulated credit at zero; otherwise it runs
`scheduleStep` with `timePerEmission = 1000 / rate`. -/
def emitterUpdate (rate : ℕ) (r dt : ℚ) : ℤ × ℚ :=
  if rate = 0 then (0, 0) else scheduleStep (timePerEmission rate) r dt

/-- Embedding of the fixed-capacity particle pool: the capacity set at
emitter construction and the list of live particles. -/
structure ParticlePool where
  capacity : ℕ
  particles : List Particle
deriving DecidableEq, Repr

/-- Modelled from the spec: the capacity-bounded spawn of `emit`
(declared at `C3DParticleEmitter.h:78`, body absent from `src/`).  The
freshly sampled particles are passed explicitly; only as many as free
slots remain are appended and the rest are silently dropped. -/
def spawn (pool : ParticlePool) (newParts : List Particle) : ParticlePool :=
  { pool with
    particles :=
      pool.particles ++ newParts.take (pool.capacity - pool.particles.length) }

/-- One aging pass over the whole pool using the in-place compaction
loop. -/
def age (dt : ℚ) (pool : ParticlePool) : ParticlePool :=
  { pool with particles := ageSwap dt [] pool.particles }

/-- An operation of the pool lifecycle: a burst or scheduled spawn
request, or an aging pass. -/
inductive PoolOp where
  | spawnOp (ps : List Particle)
  | ageOp (dt : ℚ)
deriving Repr

/-- Running a sequence of pool operations. -/
def runPool (pool : ParticlePool) : List PoolOp → ParticlePool
  | [] => pool
  | PoolOp.spawnOp ps :: rest => runPool (spawn pool ps) rest
  | PoolOp.ageOp dt :: rest => runPool (age dt pool) rest

/-- Modelled from the spec: the choice of the stored vector for a newly
spawned particle under an orbit flag (`setOrbit`, declared at
`C3DParticleEmitter.h:337`, spawn body absent from `src/`): with the
flag set the freshly sampled vector is transformed by the current
shared rotation before being stored, with the flag unset the raw
sampled vector is stored unmodified. -/
def initialVector (orbitFlag : Bool) (rotation : C3DMatrix) (sampled : C3DVector3) : C3DVector3 :=
  if orbitFlag then rotation.transformVector sampled else sampled

/-- Modelled from the spec: initialization of one newly spawned
particle.  The raw sampled vectors and scalars are passed explicitly;
each of the three orbit flags decides, once at spawn time, whether its
vector is pre-rotated by the shared rotation. -/
def spawnParticle (orbitPos orbitVel orbitAccel : Bool) (rotation : C3DMatrix)
    (posS velS accelS : C3DVector3) (size life spinSpeed : ℚ) : Particle :=
  { position := initialVector orbitPos rotation posS
    velocity := initialVector orbitVel rotation velS
    acceleration := initialVector orbitAccel rotation accelS
    size := size
    life := life
    totalLife := life
    angle := 0
    spinSpeed := spinSpeed }

/-- A concrete sample particle used to instantiate theorems with
hypotheses on explicit inputs. -/
def testParticle : Particle :=
  { position := ⟨0, 0, 0⟩
    velocity := ⟨1, 0, 0⟩
    acceleration := ⟨0, 0, 0⟩
    size := 1
    life := 50
    totalLife := 50
    angle := 0
    spinSpeed := 2 }

/-- The cross-frame state driven by `update`: the emission-credit
accumulator `_timeRunning` and the live particles. -/
structure EmitterState where
  timeRunning : ℚ
  particles : List Particle
deriving DecidableEq, Repr

/-- Modelled from the spec: one whole `update(elapsedTime)` frame
(declared at `C3DParticleEmitter.h:368`, body absent from `src/`).  A
negative elapsed time is clamped to zero; the scheduler authorizes a
spawn count; that many freshly sampled particles (passed explicitly)
are spawned up to the free capacity; every live particle then ages by
the same delta, expired particles being removed. -/
def update (rate capacity : ℕ) (newParts : List Particle) (st : EmitterState)
    (elapsedTime : ℚ) : EmitterState :=
  let dt := max elapsedTime 0
  let s := emitterUpdate rate st.timeRunning dt
  let spawned :=
    st.particles ++ (newParts.take s.1.toNat).take (capacity - st.particles.length)
  { timeRunning := s.2
    particles := ageSwap dt [] spawned }

/-- Embedding of the configuration fields of `C3DParticleEmitter`
(`C3DParticleEmitter.h:399-426`), with floats and `long` counters as
rationals; the back-pointer `_system` is external state and omitted. -/
structure C3DParticleEmitter where
  emissionRate : ℕ
  started : Bool
  ellipsoid : Bool
  sizeStartMin : ℚ
  sizeStartMax : ℚ
  ageMin : ℚ
  ageMax : ℚ
  position : C3DVector3
  positionVar : C3DVector3
  velocity : C3DVector3
  velocityVar : C3DVector3
  rotationPerParticleSpeedMin : ℚ
  rotationPerParticleSpeedMax : ℚ
  rotationSpeedMin : ℚ
  rotationSpeedMax : ℚ
  rotationAxis : C3DVector3
  rotationAxisVar : C3DVector3
  rotation : C3DMatrix
  orbitPosition : Bool
  orbitVelocity : Bool
  orbitAcceleration : Bool
  timePerEmission : ℚ
  timeLast : ℚ
  timeRunning : ℚ
deriving DecidableEq, Repr

/-- Embedding of the inline setter at `C3DParticleEmitter.h:295-298`:
`_rotationSpeedMin = speedmin;` with no validation. -/
def setRotationSpeedMin (e : C3DParticleEmitter) (speedmin : ℚ) : C3DParticleEmitter :=
  { e with rotationSpeedMin := speedmin }

/-- Embedding of the inline setter at `C3DParticleEmitter.h:310-313`:
`_rotationSpeedMax = speedMax;` with no validation. -/
def setRotationSpeedMax (e : C3DParticleEmitter) (speedMax : ℚ) : C3DParticleEmitter :=
  { e with rotationSpeedMax := speedMax }

/-- Getter declared at `C3DParticleEmitter.h:290`, returning the stored
minimum shared rotation speed. -/
def getRotationSpeedMin (e : C3DParticleEmitter) : ℚ :=
  e.rotationSpeedMin

/-- Getter declared at `C3DParticleEmitter.h:305`, returning the stored
maximum shared rotation speed. -/
def getRotationSpeedMax (e : C3DParticleEmitter) : ℚ :=
  e.rotationSpeedMax

/-- Embedding of the inline setter at `C3DParticleEmitter.h:342`:
`_orbitPosition = orbitPos;`. -/
def setOrbitPosition (e : C3DParticleEmitter) (orbitPos : Bool) : C3DParticleEmitter :=
  { e with orbitPosition := orbitPos }

/-- Embedding of the inline getter at `C3DParticleEmitter.h:346`. -/
def isOrbitPosition (e : C3DParticleEmitter) : Bool :=
  e.orbitPosition

/-- Embedding of the inline setter at `C3DParticleEmitter.h:351`:
`_orbitVelocity = orbitVel;`. -/
def setOrbitVelocity (e : C3DParticleEmitter) (orbitVel : Bool) : C3DParticleEmitter :=
  { e with orbitVelocity := orbitVel }

/-- Embedding of the inline getter at `C3DParticleEmitter.h:352`. -/
def isOrbitVelocity (e : C3DParticleEmitter) : Bool :=
  e.orbitVelocity

/-- Embedding of the inline setter at `C3DParticleEmitter.h:357`:
`_orbitAcceleration = acceleration;`. -/
def setOrbitAcceleration (e : C3DParticleEmitter) (acceleration : Bool) : C3DParticleEmitter :=
  { e with orbitAcceleration := acceleration }

/-- Embedding of the inline getter at `C3DParticleEmitter.h:358`. -/
def isOrbitAcceleration (e : C3DParticleEmitter) : Bool :=
  e.orbitAcceleration

/-- Equality of every configuration field except `orbitPosition`. -/
def agreesExceptOrbitPosition (e f : C3DParticleEmitter) : Prop :=
  e.emissionRate = f.emissionRate ∧ e.started = f.started ∧
  e.ellipsoid = f.ellipsoid ∧ e.sizeStartMin = f.sizeStartMin ∧
  e.sizeStartMax = f.sizeStartMax ∧ e.ageMin = f.ageMin ∧
  e.ageMax = f.ageMax ∧ e.position = f.position ∧
  e.positionVar = f.positionVar ∧ e.velocity = f.velocity ∧
  e.velocityVar = f.velocityVar ∧
  e.rotationPerParticleSpeedMin = f.rotationPerParticleSpeedMin ∧
  e.rotationPerParticleSpeedMax = f.rotationPerParticleSpeedMax ∧
  e.rotationSpeedMin = f.rotationSpeedMin ∧
  e.rotationSpeedMax = f.rotationSpeedMax ∧
  e.rotationAxis = f.rotationAxis ∧ e.rotationAxisVar = f.rotationAxisVar ∧
  e.rotation = f.rotation ∧ e.orbitVelocity = f.orbitVelocity ∧
  e.orbitAcceleration = f.orbitAcceleration ∧
  e.timePerEmission = f.timePerEmission ∧ e.timeLast = f.timeLast ∧
  e.timeRunning = f.timeRunning

/-- Equality of every configuration field except `orbitVelocity`. -/
def agreesExceptOrbitVelocity (e f : C3DParticleEmitter) : Prop :=
  e.emissionRate = f.emissionRate ∧ e.started = f.started ∧
  e.ellipsoid = f.ellipsoid ∧ e.sizeStartMin = f.sizeStartMin ∧
  e.sizeStartMax = f.sizeStartMax ∧ e.ageMin = f.ageMin ∧
  e.ageMax = f.ageMax ∧ e.position = f.position ∧
  e.positionVar = f.positionVar ∧ e.velocity = f.velocity ∧
  e.velocityVar = f.velocityVar ∧
  e.rotationPerParticleSpeedMin = f.rotationPerParticleSpeedMin ∧
  e.rotationPerParticleSpeedMax = f.rotationPerParticleSpeedMax ∧
  e.rotationSpeedMin = f.rotationSpeedMin ∧
  e.rotationSpeedMax = f.rotationSpeedMax ∧
  e.rotationAxis = f.rotationAxis ∧ e.rotationAxisVar = f.rotationAxisVar ∧
  e.rotation = f.rotation ∧ e.orbitPosition = f.orbitPosition ∧
  e.orbitAcceleration = f.orbitAcceleration ∧
  e.timePerEmission = f.timePerEmission ∧ e.timeLast = f.timeLast ∧
  e.timeRunning = f.timeRunning

/-- Equality of every configuration field except `orbitAcceleration`. -/
def agreesExceptOrbitAcceleration (e f : C3DParticleEmitter) : Prop :=
  e.emissionRate = f.emissionRate ∧ e.started = f.started ∧
  e.ellipsoid = f.ellipsoid ∧ e.sizeStartMin = f.sizeStartMin ∧
  e.sizeStartMax = f.sizeStartMax ∧ e.ageMin = f.ageMin ∧
  e.ageMax = f.ageMax ∧ e.position = f.position ∧
  e.positionVar = f.positionVar ∧ e.velocity = f.velocity ∧
  e.velocityVar = f.velocityVar ∧
  e.rotationPerParticleSpeedMin = f.rotationPerParticleSpeedMin ∧
  e.rotationPerParticleSpeedMax = f.rotationPerParticleSpeedMax ∧
  e.rotationSpeedMin = f.rotationSpeedMin ∧
  e.rotationSpeedMax = f.rotationSpeedMax ∧
  e.rotationAxis = f.rotationAxis ∧ e.rotationAxisVar = f.rotationAxisVar ∧
  e.rotation = f.rotation ∧ e.orbitPosition = f.orbitPosition ∧
  e.orbitVelocity = f.orbitVelocity ∧
  e.timePerEmission = f.timePerEmission ∧ e.timeLast = f.timeLast ∧
  e.timeRunning = f.timeRunning

/-! Helper lemmas about the aging compaction loop. -/

theorem ageSwap_nil (dt : ℚ) (done : List Particle) :
    ageSwap dt done [] = done := by
  rw [ageSwap]

theorem ageSwap_cons_alive (dt : ℚ) (done : List Particle) (p : Particle)
    (rest : List Particle) (h : alive (stepParticle dt p) = true) :
    ageSwap dt done (p :: rest) = ageSwap dt (done ++ [stepParticle dt p]) rest := by
  rw [ageSwap]
  simp [h]

theorem ageSwap_cons_dead_nil (dt : ℚ) (done : List Particle) (p : Particle)
    (h : alive (stepParticle dt p) = false) :
    ageSwap dt done [p] = done := by
  rw [ageSwap]
  simp [h]

theorem ageSwap_cons_dead (dt : ℚ) (done : List Particle) (p b : Particle)
    (l' : List Particle) (h : alive (stepParticle dt p) = false) :
    ageSwap dt done (p :: (l' ++ [b])) = ageSwap dt done (b :: l') := by
  rw [ageSwap]
  simp [h, List.getLast_concat, List.dropLast_concat]

/-- The compaction loop visits the accumulated prefix plus a
permutation of the stepped-and-filtered unprocessed suffix: no live
particle is skipped or processed twice. -/
theorem ageSwap_perm_aux (dt : ℚ) :
    ∀ (n : ℕ) (done todo : List Particle), todo.length ≤ n →
      List.Perm (ageSwap dt done todo) (done ++ ageSpec dt todo) := by
  intro n
  induction n with
  | zero =>
    intro done todo h
    have htodo : todo = [] := List.eq_nil_of_length_eq_zero (Nat.le_zero.mp h)
    subst htodo
    simp [ageSwap_nil, ageSpec]
  | succ n ih =>
    intro done todo h
    match todo with
    | [] => simp [ageSwap_nil, ageSpec]
    | p :: rest =>
      by_cases hq : alive (stepParticle dt p) = true
      · rw [ageSwap_cons_alive dt done p rest hq]
        have hrec := ih (done ++ [stepParticle dt p]) rest
          (by simp at h ⊢; omega)
        refine hrec.trans ?_
        simp [ageSpec, hq, List.append_assoc]
      · have hq' : alive (stepParticle dt p) = false := by
          simpa using hq
        match rest with
        | [] =>
          rw [ageSwap_cons_dead_nil dt done p hq']
          simp [ageSpec, hq']
        | a :: t =>
          have hsplit : ∃ (l' : List Particle) (b : Particle),
              a :: t = l' ++ [b] := by
            refine ⟨(a :: t).dropLast, (a :: t).getLast (by simp), ?_⟩
            exact (List.dropLast_append_getLast (by simp)).symm
          obtain ⟨l', b, hl⟩ := hsplit
          rw [hl, ageSwap_cons_dead dt done p b l' hq']
          have hlen : (b :: l').length ≤ n := by
            have h2 := congrArg List.length hl
            simp at h2 h ⊢
            omega
          refine (ih done (b :: l') hlen).trans ?_
          apply List.Perm.append_left
          have hperm : List.Perm (b :: l') (l' ++ [b]) :=
            (List.perm_append_singleton b l').symm
          have hspec : List.Perm (ageSpec dt (b :: l')) (ageSpec dt (l' ++ [b])) :=
            (hperm.map (stepParticle dt)).filter alive
          refine hspec.trans ?_
          simp [ageSpec, hq']

/-- Starting the compaction loop on the whole pool yields a permutation
of the order-insensitive aging specification. -/
theorem ageSwap_perm (dt : ℚ) (ps : List Particle) :
    List.Perm (ageSwap dt [] ps) (ageSpec dt ps) := by
  simpa using ageSwap_perm_aux dt ps.length [] ps le_rfl

/-- An aging pass never grows the live set. -/
theorem ageSwap_length_le (dt : ℚ) (ps : List Particle) :
    (ageSwap dt [] ps).length ≤ ps.length := by
  have h := (ageSwap_perm dt ps).length_eq
  rw [h]
  calc (ageSpec dt ps).length ≤ (ps.map (stepParticle dt)).length :=
        List.length_filter_le _ _
    _ = ps.length := List.length_map _ _

/-- When every stepped particle survives, the compaction loop is a plain
map in order. -/
theorem ageSwap_all_alive (dt : ℚ) :
    ∀ (todo done : List Particle),
      (∀ p ∈ todo, alive (stepParticle dt p) = true) →
      ageSwap dt done todo = done ++ todo.map (stepParticle dt) := by
  intro todo
  induction todo with
  | nil =>
    intro done _
    simp [ageSwap_nil]
  | cons p rest ih =>
    intro done hall
    have hp : alive (stepParticle dt p) = true := hall p (by simp)
    rw [ageSwap_cons_alive dt done p rest hp,
      ih (done ++ [stepParticle dt p]) (fun q hq => hall q (by simp [hq]))]
    simp

/-- Aging by a zero delta leaves a particle unchanged. -/
theorem stepParticle_zero (p : Particle) : stepParticle 0 p = p := by
  cases p with
  | mk position velocity acceleration size life totalLife angle spinSpeed =>
    cases position
    cases velocity
    simp [stepParticle, vadd, vsmul]

/-! Helper lemmas about the emission scheduler. -/

/-- One scheduler tick conserves time: the remainder plus the spawned
whole emissions accounts exactly for the accumulated time. -/
theorem scheduleStep_conserve (T r dt : ℚ) :
    (scheduleStep T r dt).2 + ((scheduleStep T r dt).1 : ℚ) * T = r + dt := by
  simp [scheduleStep]

/-- After a scheduler tick the remainder lies in `[0, T)`. -/
theorem scheduleStep_range (T r dt : ℚ) (hT : 0 < T) :
    0 ≤ (scheduleStep T r dt).2 ∧ (scheduleStep T r dt).2 < T := by
  simp only [scheduleStep]
  set t := r + dt with ht
  have h1 : (⌊t / T⌋ : ℚ) ≤ t / T := Int.floor_le _
  have h2 : t / T < ⌊t / T⌋ + 1 := Int.lt_floor_add_one _
  rw [le_div_iff₀ hT] at h1
  rw [div_lt_iff₀ hT] at h2
  constructor
  · linarith
  · nlinarith

/-- Folded form of time conservation over a delta sequence. -/
theorem runSchedule_conserve (T : ℚ) :
    ∀ (dts : List ℚ) (r : ℚ),
      (runSchedule T dts r).2 + ((runSchedule T dts r).1 : ℚ) * T = r + dts.sum := by
  intro dts
  induction dts with
  | nil => intro r; simp [runSchedule]
  | cons dt rest ih =>
    intro r
    have hstep := scheduleStep_conserve T r dt
    have hrec := ih (scheduleStep T r dt).2
    simp only [runSchedule, List.sum_cons]
    push_cast
    nlinarith [hstep, hrec]

/-- The remainder stays in `[0, T)` across any delta sequence. -/
theorem runSchedule_range (T : ℚ) (hT : 0 < T) :
    ∀ (dts : List ℚ) (r : ℚ), 0 ≤ r → r < T →
      0 ≤ (runSchedule T dts r).2 ∧ (runSchedule T dts r).2 < T := by
  intro dts
  induction dts with
  | nil => intro r h0 h1; simpa [runSchedule] using ⟨h0, h1⟩
  | cons dt rest ih =>
    intro r _ _
    have hstep := scheduleStep_range T r dt hT
    simpa [runSchedule] using ih (scheduleStep T r dt).2 hstep.1 hstep.2

/-! Helper lemmas about the particle pool. -/

/-- A capacity-bounded spawn fills at most the free slots: the new live
count is the old count plus the request, capped at the capacity. -/
theorem spawn_length (pool : ParticlePool) (ps : List Particle)
    (h : pool.particles.length ≤ pool.capacity) :
    (spawn pool ps).particles.length =
      min (pool.particles.length + ps.length) pool.capacity := by
  simp [spawn, List.length_take]
  omega

theorem spawn_capacity (pool : ParticlePool) (ps : List Particle) :
    (spawn pool ps).capacity = pool.capacity := rfl

theorem age_capacity (dt : ℚ) (pool : ParticlePool) :
    (age dt pool).capacity = pool.capacity := rfl

/-- The pool invariant is preserved by any operation sequence, and the
capacity itself never changes. -/
theorem runPool_inv (ops : List PoolOp) :
    ∀ pool : ParticlePool, pool.particles.length ≤ pool.capacity →
      (runPool pool ops).particles.length ≤ pool.capacity ∧
      (runPool pool ops).capacity = pool.capacity := by
  induction ops with
  | nil =>
    intro pool h
    exact ⟨h, rfl⟩
  | cons op rest ih =>
    intro pool h
    cases op with
    | spawnOp ps =>
      have h1 : (spawn pool ps).particles.length ≤ (spawn pool ps).capacity := by
        rw [spawn_capacity, spawn_length pool ps h]
        omega
      have := ih (spawn pool ps) h1
      rw [spawn_capacity] at this
      exact this
    | ageOp dt =>
      have h1 : (age dt pool).particles.length ≤ (age dt pool).capacity := by
        rw [age_capacity]
        exact le_trans (ageSwap_length_le dt pool.particles) h
      have := ih (age dt pool) h1
      rw [age_capacity] at this
      exact this

/-! The claims. -/

/-- Claim C1: on each scheduler tick, `dt` is added to the running-time
accumulator, `floor(timeRunning / timePerEmission)` particles are
spawned and `spawnCount * timePerEmission` is subtracted, so the
fractional remainder persists; consequently, over any sequence of
updates starting from an empty accumulator, the total number of
particles scheduled equals the floor of total elapsed time divided by
`timePerEmission`, and the final accumulator is the exact remainder. -/
theorem update_schedules_floor_of_total (T : ℚ) (dts : List ℚ) (hT : 0 < T) :
    (∀ r dt : ℚ, scheduleStep T r dt =
      (⌊(r + dt) / T⌋, (r + dt) - (⌊(r + dt) / T⌋ : ℚ) * T)) ∧
    (runSchedule T dts 0).1 = ⌊dts.sum / T⌋ ∧
    (runSchedule T dts 0).2 = dts.sum - (⌊dts.sum / T⌋ : ℚ) * T := by
  have hcons := runSchedule_conserve T dts 0
  have hrange := runSchedule_range T hT dts 0 le_rfl hT
  have hfloor : ⌊dts.sum / T⌋ = (runSchedule T dts 0).1 := by
    rw [Int.floor_eq_iff]
    constructor
    · rw [le_div_iff₀ hT]
      nlinarith [hcons, hrange.1]
    · rw [div_lt_iff₀ hT]
      nlinarith [hcons, hrange.2]
  refine ⟨fun r dt => rfl, hfloor.symm, ?_⟩
  rw [hfloor]
  nlinarith [hcons]

/-- Concrete instance of the C1 theorem: period 4 ms, three ticks of
3 ms each schedule exactly 2 particles and leave 1 ms of credit. -/
theorem update_schedules_floor_of_total_witness :
    (0 : ℚ) < 4 ∧
    ((∀ r dt : ℚ, scheduleStep 4 r dt =
       (⌊(r + dt) / 4⌋, (r + dt) - (⌊(r + dt) / 4⌋ : ℚ) * 4)) ∧
     (runSchedule 4 [3, 3, 3] 0).1 = ⌊([3, 3, 3] : List ℚ).sum / 4⌋ ∧
     (runSchedule 4 [3, 3, 3] 0).2 =
       ([3, 3, 3] : List ℚ).sum - (⌊([3, 3, 3] : List ℚ).sum / 4⌋ : ℚ) * 4) :=
  ⟨by norm_num, update_schedules_floor_of_total 4 [3, 3, 3] (by norm_num)⟩

/-- Claim C2: over every sequence of spawn and aging operations the
live-particle count never exceeds the capacity fixed at construction,
and a spawn request for more particles than free slots remain silently
spawns only the available slots. -/
theorem live_count_le_capacity (pool : ParticlePool) (ops : List PoolOp)
    (ps : List Particle) (h : pool.particles.length ≤ pool.capacity) :
    (runPool pool ops).particles.length ≤ pool.capacity ∧
    (spawn pool ps).particles.length =
      min (pool.particles.length + ps.length) pool.capacity := by
  exact ⟨(runPool_inv ops pool h).1, spawn_length pool ps h⟩

/-- Concrete instance of the C2 theorem: a pool of capacity 2 receiving
a burst of 3 particles followed by an aging pass stays within capacity,
and the burst spawns only 2 of the 3 requested particles. -/
theorem live_count_le_capacity_witness :
    (([] : List Particle).length ≤ 2) ∧
    ((runPool ⟨2, []⟩
        [PoolOp.spawnOp (List.replicate 3 testParticle),
         PoolOp.ageOp 1]).particles.length ≤ 2 ∧
     (spawn ⟨2, []⟩ (List.replicate 3 testParticle)).particles.length =
       min (([] : List Particle).length + (List.replicate 3 testParticle).length) 2) :=
  ⟨by decide,
   live_count_le_capacity ⟨2, []⟩
     [PoolOp.spawnOp (List.replicate 3 testParticle), PoolOp.ageOp 1]
     (List.replicate 3 testParticle) (by decide)⟩

/-- Claim C3: a degenerate range is fully deterministic.  Scalar
sampling with `min = max` returns exactly `min` whatever the random
draw, and box-vector sampling with zero variance returns exactly the
base vector whatever the per-axis draws. -/
theorem degenerate_range_deterministic (m rnd : ℚ) (base u : C3DVector3) :
    generateScalar m m rnd = m ∧
    generateVectorInRect base ⟨0, 0, 0⟩ u = base := by
  constructor
  · simp [generateScalar]
  · cases base
    simp [generateVectorInRect]

/-- Claim C4: every point of the ellipsoid sampler lies within the
ellipsoid: for a unit direction and a radius draw of `[0, 1]`, the
offset of the result from the center, divided componentwise by the
scale, has squared Euclidean magnitude at most 1 (hence magnitude at
most 1). -/
theorem generateVectorInEllipsoid_inside (center scale dir : C3DVector3) (r : ℚ)
    (hdir : normSq dir = 1) (hr0 : 0 ≤ r) (hr1 : r ≤ 1)
    (hx : scale.x ≠ 0) (hy : scale.y ≠ 0) (hz : scale.z ≠ 0) :
    normalizedOffsetNormSq center scale
      (generateVectorInEllipsoid center scale dir r) ≤ 1 := by
  simp only [normSq] at hdir
  simp only [normalizedOffsetNormSq, generateVectorInEllipsoid]
  have ex : (center.x + r * scale.x * dir.x - center.x) / scale.x = r * dir.x := by
    field_simp
    ring
  have ey : (center.y + r * scale.y * dir.y - center.y) / scale.y = r * dir.y := by
    field_simp
    ring
  have ez : (center.z + r * scale.z * dir.z - center.z) / scale.z = r * dir.z := by
    field_simp
    ring
  rw [ex, ey, ez]
  nlinarith [hdir, hr0, hr1, sq_nonneg r,
    sq_nonneg dir.x, sq_nonneg dir.y, sq_nonneg dir.z]

/-- Concrete instance of the C4 theorem: direction `(1,0,0)`, radius
`1/2`, scale `(1,2,3)`. -/
theorem generateVectorInEllipsoid_inside_witness :
    normSq ⟨1, 0, 0⟩ = 1 ∧ (0 : ℚ) ≤ 1/2 ∧ (1 : ℚ)/2 ≤ 1 ∧
    (⟨1, 2, 3⟩ : C3DVector3).x ≠ 0 ∧ (⟨1, 2, 3⟩ : C3DVector3).y ≠ 0 ∧
    (⟨1, 2, 3⟩ : C3DVector3).z ≠ 0 ∧
    normalizedOffsetNormSq ⟨5, 6, 7⟩ ⟨1, 2, 3⟩
      (generateVectorInEllipsoid ⟨5, 6, 7⟩ ⟨1, 2, 3⟩ ⟨1, 0, 0⟩ (1/2)) ≤ 1 :=
  ⟨by norm_num [normSq], by norm_num, by norm_num, by norm_num, by norm_num,
   by norm_num,
   generateVectorInEllipsoid_inside ⟨5, 6, 7⟩ ⟨1, 2, 3⟩ ⟨1, 0, 0⟩ (1/2)
     (by norm_num [normSq]) (by norm_num) (by norm_num) (by norm_num)
     (by norm_num) (by norm_num)⟩

/-- Claim C5: aging a live particle by `dt` advances position by
`velocity * dt`, decrements remaining life by `dt` and advances the
spin angle by `spinSpeed * dt`; particles whose remaining life thereby
reaches zero or below are removed in that same pass, and the in-place
compaction removal neither skips nor double-processes any other live
particle — the surviving pool is exactly (as a multiset) the stepped
particles with positive remaining life. -/
theorem age_removes_expired_exactly (dt : ℚ) (ps : List Particle) :
    (∀ p : Particle,
      (stepParticle dt p).position = vadd p.position (vsmul dt p.velocity) ∧
      (stepParticle dt p).life = p.life - dt ∧
      (stepParticle dt p).angle = p.angle + p.spinSpeed * dt) ∧
    List.Perm (ageSwap dt [] ps) ((ps.map (stepParticle dt)).filter alive) := by
  refine ⟨fun p => ⟨rfl, rfl, rfl⟩, ?_⟩
  exact ageSwap_perm dt ps

/-- Claim C6: with emission rate zero the scheduler produces zero
spawns on every update regardless of elapsed time and holds the
accumulated credit at zero; for a non-zero rate, `timePerEmission`
equals `1000 / emissionRate` milliseconds. -/
theorem emission_rate_zero_disabled (r dt : ℚ) (rate : ℕ) (h : rate ≠ 0) :
    emitterUpdate 0 r dt = (0, 0) ∧
    timePerEmission rate = 1000 / (rate : ℚ) := by
  constructor
  · simp [emitterUpdate]
  · simp [timePerEmission, h]

/-- Concrete instance of the C6 theorem at rate 4, with stale credit 7
and a 3 ms tick while disabled. -/
theorem emission_rate_zero_disabled_witness :
    (4 : ℕ) ≠ 0 ∧
    (emitterUpdate 0 7 3 = (0, 0) ∧
     timePerEmission 4 = 1000 / ((4 : ℕ) : ℚ)) :=
  ⟨by decide, emission_rate_zero_disabled 7 3 4 (by decide)⟩

/-- Claim C7: an update with zero elapsed time is a no-op — no
particles spawned, no particle state changed, no credit change — and an
update with negative elapsed time is clamped to zero, so it never
decreases the emission credit, moves particles backward, or increases
any remaining life.  The hypotheses are the cross-frame invariants: the
credit lies in `[0, timePerEmission)` and every live particle has
positive remaining life. -/
theorem update_nonpositive_dt_noop (rate capacity : ℕ) (newParts : List Particle)
    (st : EmitterState) (e : ℚ) (hrate : rate ≠ 0)
    (hr0 : 0 ≤ st.timeRunning) (hrT : st.timeRunning < timePerEmission rate)
    (halive : ∀ p ∈ st.particles, 0 < p.life) (he : e ≤ 0) :
    update rate capacity newParts st e = st := by
  have hdt : max e 0 = 0 := max_eq_right he
  have hT : 0 < timePerEmission rate := lt_of_le_of_lt hr0 hrT
  have hfl : ⌊st.timeRunning / timePerEmission rate⌋ = 0 := by
    rw [Int.floor_eq_zero_iff]
    exact ⟨div_nonneg hr0 (le_of_lt hT), (div_lt_one hT).mpr hrT⟩
  have hsched : emitterUpdate rate st.timeRunning 0 = (0, st.timeRunning) := by
    simp [emitterUpdate, hrate, scheduleStep, hfl]
  have hall : ∀ p ∈ st.particles, alive (stepParticle 0 p) = true := by
    intro p hp
    have hl := halive p hp
    simp [alive, stepParticle, hl]
  have hage : ageSwap 0 [] st.particles = st.particles := by
    rw [ageSwap_all_alive 0 st.particles [] hall]
    have hid : stepParticle 0 = fun p => p := funext stepParticle_zero
    simp [hid]
  simp only [update, hdt, hsched, Int.toNat_zero, List.take_zero,
    List.take_nil, List.append_nil, hage]

/-- Concrete instance of the C7 theorem: rate 2 (period 500 ms), credit
100 ms, one live particle, elapsed time -5 ms. -/
theorem update_nonpositive_dt_noop_witness :
    (2 : ℕ) ≠ 0 ∧
    (0 : ℚ) ≤ (⟨100, [testParticle]⟩ : EmitterState).timeRunning ∧
    (⟨100, [testParticle]⟩ : EmitterState).timeRunning < timePerEmission 2 ∧
    (∀ p ∈ (⟨100, [testParticle]⟩ : EmitterState).particles, 0 < p.life) ∧
    (-5 : ℚ) ≤ 0 ∧
    update 2 4 [] ⟨100, [testParticle]⟩ (-5) = ⟨100, [testParticle]⟩ :=
  ⟨by decide, by decide, by norm_num [timePerEmission], by decide, by decide,
   update_nonpositive_dt_noop 2 4 [] ⟨100, [testParticle]⟩ (-5) (by decide)
     (by decide) (by norm_num [timePerEmission]) (by decide) (by decide)⟩

/-- Claim C8: for a newly spawned particle, each orbit flag decides
whether the stored initial vector is the shared rotation applied to the
freshly sampled vector (flag set) or the raw sampled vector (flag
unset); the transformation happens only at spawn time — the aging step
leaves the stored velocity and acceleration untouched and applies no
rotation. -/
theorem orbit_rotation_at_spawn_only (rot : C3DMatrix) (pS vS aS : C3DVector3)
    (sz lf sp : ℚ) (bp bv ba : Bool) (dt : ℚ) (p : Particle) :
    (spawnParticle true bv ba rot pS vS aS sz lf sp).position =
        rot.transformVector pS ∧
    (spawnParticle false bv ba rot pS vS aS sz lf sp).position = pS ∧
    (spawnParticle bp true ba rot pS vS aS sz lf sp).velocity =
        rot.transformVector vS ∧
    (spawnParticle bp false ba rot pS vS aS sz lf sp).velocity = vS ∧
    (spawnParticle bp bv true rot pS vS aS sz lf sp).acceleration =
        rot.transformVector aS ∧
    (spawnParticle bp bv false rot pS vS aS sz lf sp).acceleration = aS ∧
    (stepParticle dt p).velocity = p.velocity ∧
    (stepParticle dt p).acceleration = p.acceleration := by
  simp [spawnParticle, initialVector, stepParticle]

/-- Claim C9: the inline rotation-speed setters perform no range
validation: the getters return exactly the stored values, even when the
stored minimum is left greater than the stored maximum. -/
theorem rotation_speed_setters_no_validation (e : C3DParticleEmitter) (v w : ℚ) :
    getRotationSpeedMin (setRotationSpeedMin e v) = v ∧
    getRotationSpeedMax (setRotationSpeedMax e w) = w ∧
    getRotationSpeedMin (setRotationSpeedMax (setRotationSpeedMin e v) w) = v ∧
    getRotationSpeedMax (setRotationSpeedMax (setRotationSpeedMin e v) w) = w := by
  refine ⟨rfl, rfl, rfl, rfl⟩

/-- Claim C10: each inline orbit-flag setter modifies only its own
flag: the corresponding getter returns the written boolean while the
other two orbit flags and every other configuration field are
unchanged. -/
theorem orbit_setters_modify_only_own_flag (e : C3DParticleEmitter) (b : Bool) :
    (isOrbitPosition (setOrbitPosition e b) = b ∧
       agreesExceptOrbitPosition (setOrbitPosition e b) e) ∧
    (isOrbitVelocity (setOrbitVelocity e b) = b ∧
       agreesExceptOrbitVelocity (setOrbitVelocity e b) e) ∧
    (isOrbitAcceleration (setOrbitAcceleration e b) = b ∧
       agreesExceptOrbitAcceleration (setOrbitAcceleration e b) e) := by
  refine ⟨⟨rfl, ?_⟩, ⟨rfl, ?_⟩, ⟨rfl, ?_⟩⟩ <;>
    simp [agreesExceptOrbitPosition, agreesExceptOrbitVelocity,
      agreesExceptOrbitAcceleration, setOrbitPosition, setOrbitVelocity,
      setOrbitAcceleration]

end Cocos3d
